import Mathlib

/-!
Shallow embedding of the Smart-Note-App authentication core and notes CRUD
(`src/modules/auth/auth.controller.js`, `src/middleware/auth.middleware.js`,
`src/middleware/validation.middleware.js`, `src/modules/notes/notes.controller.js`,
`src/config/jwt.config.js`, the Mongoose `Token` and `Note` models).

Conventions of the embedding:
* MongoDB documents become Lean structures; a collection is a `List` of documents,
  `findOne` is `List.find?` with the query predicate, inserts append, deletes filter.
* Timestamps are `Nat` (JWT `exp`/`iat` in seconds at the token layer, `Date.now()`
  milliseconds at the store layer, exactly as in the JS code).
* `bcrypt` is modelled by a concrete injective hash function; `Math.random()`-driven
  OTP generation takes the floored random draw as an explicit `Fin 900000` parameter
  (`Math.floor(Math.random()*900000)` always lies in `0..899999`).
* A JWT on the wire is a string produced by a concrete injective serialisation
  `encodeJwt`; `jwt.verify` is `jwtVerify`, which parses the string and checks the
  signing key, expiry, audience and issuer in the library's order.
-/

namespace SmartNote

/-! ### Wire codec: an injective string serialisation for signed tokens -/

/-- Escape a character stream so that the result never contains the field
separator `|`: a literal `%` becomes `%%` and a literal `|` becomes `%b`. -/
def esc : List Char → List Char
  | [] => []
  | c :: cs =>
    if c = '%' then '%' :: '%' :: esc cs
    else if c = '|' then '%' :: 'b' :: esc cs
    else c :: esc cs

/-- Inverse of `esc`. -/
def unesc : List Char → List Char
  | [] => []
  | [c] => [c]
  | c :: d :: cs =>
    if c = '%' then (if d = 'b' then '|' else '%') :: unesc cs
    else c :: unesc (d :: cs)

/-- Split a character stream at every `|`. -/
def splitBar : List Char → List (List Char)
  | [] => [[]]
  | c :: cs =>
    if c = '|' then [] :: splitBar cs
    else
      match splitBar cs with
      | [] => [[c]]
      | g :: gs => (c :: g) :: gs

/-- Little-endian binary rendering of a natural number over `'0'`/`'1'`,
with explicit fuel so the recursion is structural. -/
def natToCharsAux : Nat → Nat → List Char
  | _, 0 => []
  | 0, _ + 1 => []
  | fuel + 1, n + 1 =>
    (if (n + 1) % 2 = 1 then '1' else '0') :: natToCharsAux fuel ((n + 1) / 2)

/-- Little-endian binary rendering of a natural number over `'0'`/`'1'`. -/
def natToChars (n : Nat) : List Char := natToCharsAux n n

/-- Parse the little-endian binary rendering back to a natural number. -/
def charsToNat : List Char → Nat
  | [] => 0
  | c :: cs => (if c = '1' then 1 else 0) + 2 * charsToNat cs

theorem esc_no_bar : ∀ cs : List Char, '|' ∉ esc cs := by
  intro cs
  induction cs with
  | nil => simp [esc]
  | cons c cs ih =>
    by_cases h1 : c = '%'
    · rw [esc, if_pos h1]
      intro hmem
      rcases List.mem_cons.mp hmem with h | h
      · exact absurd h (by decide)
      · rcases List.mem_cons.mp h with h | h
        · exact absurd h (by decide)
        · exact ih h
    · by_cases h2 : c = '|'
      · rw [esc, if_neg h1, if_pos h2]
        intro hmem
        rcases List.mem_cons.mp hmem with h | h
        · exact absurd h (by decide)
        · rcases List.mem_cons.mp h with h | h
          · exact absurd h (by decide)
          · exact ih h
      · rw [esc, if_neg h1, if_neg h2]
        intro hmem
        rcases List.mem_cons.mp hmem with h | h
        · exact h2 h.symm
        · exact ih h

theorem unesc_esc : ∀ cs : List Char, unesc (esc cs) = cs := by
  intro cs
  induction cs with
  | nil => rfl
  | cons c cs ih =>
    by_cases h1 : c = '%'
    · rw [esc, if_pos h1, unesc, ih, h1]
      simp
    · by_cases h2 : c = '|'
      · rw [esc, if_neg h1, if_pos h2, unesc, ih, h2]
        simp
      · rw [esc, if_neg h1, if_neg h2]
        cases hesc : esc cs with
        | nil =>
          have hcs : cs = [] := by rw [← ih, hesc]; rfl
          rw [hcs, unesc]
        | cons d ds =>
          rw [hesc] at ih
          rw [unesc, if_neg h1, ih]

theorem charsToNat_natToCharsAux :
    ∀ fuel n : Nat, n ≤ fuel → charsToNat (natToCharsAux fuel n) = n := by
  intro fuel
  induction fuel with
  | zero =>
    intro n hn
    have : n = 0 := Nat.le_zero.mp hn
    subst this
    rw [natToCharsAux, charsToNat]
  | succ fuel ih =>
    intro n hn
    match n with
    | 0 => rw [natToCharsAux, charsToNat]
    | m + 1 =>
      rw [natToCharsAux, charsToNat]
      have hdiv : (m + 1) / 2 ≤ fuel := by
        have := Nat.div_lt_self (Nat.succ_pos m) (show 1 < 2 by omega)
        omega
      rw [ih _ hdiv]
      by_cases h : (m + 1) % 2 = 1
      · rw [if_pos h, if_pos rfl]
        omega
      · rw [if_neg h]
        have hne : ¬ (('0' : Char) = '1') := by decide
        rw [if_neg hne]
        omega

theorem charsToNat_natToChars (n : Nat) : charsToNat (natToChars n) = n :=
  charsToNat_natToCharsAux n n (Nat.le_refl n)

theorem natToCharsAux_no_bar : ∀ fuel n : Nat, '|' ∉ natToCharsAux fuel n := by
  intro fuel
  induction fuel with
  | zero =>
    intro n
    match n with
    | 0 => simp [natToCharsAux]
    | m + 1 => simp [natToCharsAux]
  | succ fuel ih =>
    intro n
    match n with
    | 0 => simp [natToCharsAux]
    | m + 1 =>
      rw [natToCharsAux]
      intro hmem
      rcases List.mem_cons.mp hmem with h | h
      · by_cases hp : (m + 1) % 2 = 1
        · rw [if_pos hp] at h; exact absurd h (by decide)
        · rw [if_neg hp] at h; exact absurd h (by decide)
      · exact ih _ h

theorem natToChars_no_bar (n : Nat) : '|' ∉ natToChars n :=
  natToCharsAux_no_bar n n

theorem splitBar_append (a rest : List Char) (ha : '|' ∉ a) :
    splitBar (a ++ '|' :: rest) = a :: splitBar rest := by
  induction a with
  | nil => simp [splitBar]
  | cons c a ih =>
    have hc : ¬ (c = '|') := fun h => ha (h ▸ List.mem_cons_self c a)
    have ha' : '|' ∉ a := fun h => ha (List.mem_cons_of_mem c h)
    rw [List.cons_append, splitBar, if_neg hc, ih ha']

theorem splitBar_no_bar (a : List Char) (ha : '|' ∉ a) : splitBar a = [a] := by
  induction a with
  | nil => rfl
  | cons c a ih =>
    have hc : ¬ (c = '|') := fun h => ha (h ▸ List.mem_cons_self c a)
    have ha' : '|' ∉ a := fun h => ha (List.mem_cons_of_mem c h)
    rw [splitBar, if_neg hc, ih ha']

/-! ### JWT layer (`src/config/jwt.config.js` + the `jsonwebtoken` library boundary)

`login` signs `{ payload: { sub, email } }` with sign options
`{ algorithm: RS256, expiresIn: '24h', issuer, jwtid, subject, audience }`; the
library adds the registered claims `iat`, `exp = iat + 24h`, `iss`, `aud`, `sub`,
`jti` to the payload.  `JwtClaims` is that flattened claim set (the nested
`payload.sub`/`payload.email` duplicate `sub` and `email`). -/

structure JwtClaims where
  sub : String
  email : String
  jti : String
  iat : Nat
  exp : Nat
  iss : String
  aud : String
deriving Repr, DecidableEq

/-- Serialise a signed token: the escaped fields joined by `|`, the signing key as
the last field (standing for the RS256 signature over the claims). -/
def encodeJwtChars (c : JwtClaims) (sigKey : String) : List Char :=
  esc c.sub.data ++ '|' :: (esc c.email.data ++ '|' :: (esc c.jti.data ++ '|' ::
    (natToChars c.iat ++ '|' :: (natToChars c.exp ++ '|' :: (esc c.iss.data ++ '|' ::
      (esc c.aud.data ++ '|' :: esc sigKey.data))))))

def encodeJwt (c : JwtClaims) (sigKey : String) : String :=
  String.mk (encodeJwtChars c sigKey)

/-- Parse a wire token back into claims and signing key; `none` on any string
that is not a well-formed token (the library's `jwt malformed` case). -/
def decodeJwtChars (cs : List Char) : Option (JwtClaims × String) :=
  match splitBar cs with
  | [a, b, c, d, e, f, g, h] =>
    some (⟨String.mk (unesc a), String.mk (unesc b), String.mk (unesc c),
           charsToNat d, charsToNat e, String.mk (unesc f), String.mk (unesc g)⟩,
          String.mk (unesc h))
  | _ => none

theorem string_mk_data (s : String) : String.mk s.data = s := rfl

theorem decode_encode (c : JwtClaims) (k : String) :
    decodeJwtChars (encodeJwtChars c k) = some (c, k) := by
  unfold decodeJwtChars encodeJwtChars
  rw [splitBar_append _ _ (esc_no_bar _), splitBar_append _ _ (esc_no_bar _),
    splitBar_append _ _ (esc_no_bar _), splitBar_append _ _ (natToChars_no_bar _),
    splitBar_append _ _ (natToChars_no_bar _), splitBar_append _ _ (esc_no_bar _),
    splitBar_append _ _ (esc_no_bar _), splitBar_no_bar _ (esc_no_bar _)]
  simp only [unesc_esc, charsToNat_natToChars, string_mk_data]

/-- The RSA private key of `jwt.config.js`, loaded from disk (opaque here). -/
def jwtPrivateKey : String := "rsa-2048-private-key"

/-- The public key of an RSA key pair, as a function of the private key: RS256
verification with `pubKeyOf k` succeeds exactly on tokens signed with `k`. -/
def pubKeyOf (priv : String) : String := "public-key-of:" ++ priv

def jwtPublicKey : String := pubKeyOf jwtPrivateKey

def jwtIssuer : String := "smart-note-app"

def jwtAudience : String := "smart-note-app-users"

/-- Token lifetime `expiresIn: '24h'`, in seconds (JWT `exp`/`iat` are in seconds). -/
def jwtExpiresInSeconds : Nat := 24 * 60 * 60

/-- Embedding of `jwt.sign({ payload }, privateKey, getSignOptions(jti, subject))`. -/
def jwtSign (sub email jti : String) (now : Nat) : String :=
  encodeJwt
    { sub := sub, email := email, jti := jti, iat := now,
      exp := now + jwtExpiresInSeconds, iss := jwtIssuer, aud := jwtAudience }
    jwtPrivateKey

/-- Outcome of `jwt.verify`: success, `TokenExpiredError`, or `JsonWebTokenError`
(malformed token, invalid signature, audience or issuer mismatch). -/
inductive VerifyResult
  | ok (claims : JwtClaims)
  | expired
  | invalid
deriving Repr, DecidableEq

/-- Embedding of `jwt.verify(token, publicKey, getVerifyOptions())`, checking in the
library's order: decode, signature, expiry, audience, issuer. -/
def jwtVerify (token : String) (pubKey : String) (now : Nat) : VerifyResult :=
  match decodeJwtChars token.data with
  | none => .invalid
  | some (claims, sigKey) =>
    if pubKeyOf sigKey ≠ pubKey then .invalid
    else if claims.exp ≤ now then .expired
    else if claims.aud ≠ jwtAudience then .invalid
    else if claims.iss ≠ jwtIssuer then .invalid
    else .ok claims

/-! ### bcrypt model -/

/-- Embedding of `bcrypt.hash(password, 12)`, modelled as a concrete injective digest. -/
def bcryptHash (password : String) : String := "bcrypt-2b-12-" ++ password

/-- Embedding of `bcrypt.compare(password, hash)`. -/
def bcryptCompare (password hash : String) : Bool :=
  decide (hash = bcryptHash password)

/-! ### Data model (Mongoose schemas) -/

/-- A `User.model.js` document (fields used by the controllers). -/
structure User where
  id : Nat
  email : String
  password : String
  isVerified : Bool
deriving Repr, DecidableEq

/-- A `Token.model.js` document: `userId`, `token`, `type` (enum
`verification | refresh | reset`), `expiresAt` (ms).  The schema is strict, so the
paths `jti` and `isRevoked` queried by `auth.middleware.js` are never present on a
saved document; they are modelled as `Option` fields that every creation site
leaves at `none`. -/
structure TokenRecord where
  id : Nat
  userId : Nat
  token : String
  type : String
  expiresAt : Nat
  jti : Option String := none
  isRevoked : Option Bool := none
deriving Repr, DecidableEq

/-- A `Note.model.js` document. -/
structure Note where
  id : Nat
  title : String
  content : String
  ownerId : Nat
deriving Repr, DecidableEq

/-- The MongoDB state: one list per collection, plus a fresh-`_id` counter. -/
structure DB where
  users : List User
  tokens : List TokenRecord
  notes : List Note
  nextId : Nat
deriving Repr, DecidableEq

/-- The typed failures raised by the controllers/middleware (`createError` calls),
one constructor per distinct `(status, message)` pair. -/
inductive AppError
  | invalidCredentials            -- 401 'Invalid email or password'
  | userNotFound                  -- 404 'User not found'
  | missingToken                  -- 401 'Access token required'
  | tokenExpired                  -- 401 'Token expired'
  | tokenInvalid                  -- 401 'Invalid token'
  | tokenRevoked                  -- 401 'Token has been revoked'
  | userNotFoundAuth              -- 401 'User not found' (auth.middleware)
  | resetAlreadyPending (minutesLeft : Nat)  -- 429 'Please wait N minutes ...'
  | emailDeliveryFailed           -- 500 'Failed to send OTP email ...'
  | invalidOrExpiredOtp           -- 400 'Invalid or expired OTP'
  | passwordTooShort              -- 400 'Password must be at least 6 characters long'
  | passwordUnchanged             -- 400 'New password must be different ...'
  | noteNotFound                  -- 404 'Note not found'
  | validationFailed              -- 400 Joi validation error
deriving Repr, DecidableEq

/-! ### Authentication core (`auth.controller.js`, `auth.middleware.js`) -/

/-- The `login` controller: find user by email, compare password, sign a JWT.  `jti` stands for
the `crypto.randomUUID()` draw, `now` for the current time in seconds. -/
def login (db : DB) (email password : String) (now : Nat) (jti : String) :
    Except AppError (User × String) :=
  match db.users.find? (fun u => decide (u.email = email)) with
  | none => .error .invalidCredentials
  | some user =>
    if bcryptCompare password user.password then
      .ok (user, jwtSign (toString user.id) user.email jti now)
    else
      .error .invalidCredentials

/-- The `authenticate` middleware: Bearer extraction, `jwt.verify`, revocation
lookup, user lookup; on success returns `(req.user, req.tokenJti, req.tokenExp)`. -/
def authenticate (db : DB) (authHeader : Option String) (now : Nat) :
    Except AppError (User × String × Nat) :=
  match authHeader with
  | none => .error .missingToken
  | some header =>
    -- `authHeader.startsWith('Bearer ')`
    if header.data.take 7 ≠ "Bearer ".data then .error .missingToken
    else
      -- `token = authHeader.substring(7)`; `if (!token)`
      if String.mk (header.data.drop 7) = "" then .error .missingToken
      else
        match jwtVerify (String.mk (header.data.drop 7)) jwtPublicKey now with
        | .expired => .error .tokenExpired
        | .invalid => .error .tokenInvalid
        | .ok claims =>
          -- `Token.findOne({ jti: decoded.jti, isRevoked: true })`
          match db.tokens.find? (fun t =>
              decide (t.jti = some claims.jti ∧ t.isRevoked = some true)) with
          | some _ => .error .tokenRevoked
          | none =>
            -- `User.findById(decoded.sub)`
            match db.users.find? (fun u => decide (toString u.id = claims.sub)) with
            | none => .error .userNotFoundAuth
            | some user => .ok (user, claims.jti, claims.exp)

/-- The `logout` controller: responds success, writes nothing. -/
def logout (db : DB) : Except AppError Unit × DB := (.ok (), db)

/-- Route `POST /logout` = `authenticate` middleware then the `logout` controller. -/
def logoutRoute (db : DB) (authHeader : Option String) (now : Nat) :
    Except AppError Unit × DB :=
  match authenticate db authHeader now with
  | .error e => (.error e, db)
  | .ok _ => logout db

/-- OTP generation `Math.floor(100000 + Math.random() * 900000).toString()`; `rnd` is the
floored draw `Math.floor(Math.random() * 900000) ∈ 0..899999`. -/
def otpOf (rnd : Fin 900000) : String := toString (100000 + rnd.val)

/-- The `forgetPassword` controller: user lookup, pending-token check (remaining minutes via
`Math.ceil`), OTP generation, token save, mail dispatch (`emailOk` is the
outcome of `sendOTPEmail`), cleanup on dispatch failure.  `now` is in ms. -/
def forgetPassword (db : DB) (email : String) (now : Nat) (rnd : Fin 900000)
    (emailOk : Bool) : Except AppError Unit × DB :=
  match db.users.find? (fun u => decide (u.email = email)) with
  | none => (.error .userNotFound, db)
  | some user =>
    match db.tokens.find? (fun t =>
        decide (t.userId = user.id ∧ t.type = "reset" ∧ now < t.expiresAt)) with
    | some existingToken =>
      -- `Math.ceil((existingToken.expiresAt - new Date()) / 1000 / 60)`
      (.error (.resetAlreadyPending ((existingToken.expiresAt - now + 59999) / 60000)), db)
    | none =>
      let otp := otpOf rnd
      let expiresAt := now + 10 * 60 * 1000
      let tok : TokenRecord :=
        { id := db.nextId, userId := user.id, token := otp, type := "reset",
          expiresAt := expiresAt }
      let db2 : DB := { db with tokens := db.tokens ++ [tok], nextId := db.nextId + 1 }
      if emailOk then (.ok (), db2)
      else
        -- `await Token.findByIdAndDelete(token._id)` then 500
        (.error .emailDeliveryFailed,
          { db2 with tokens := db2.tokens.filter (fun t => decide (t.id ≠ tok.id)) })

/-- The `resetPassword` controller: length check, user lookup, OTP lookup (unexpired), same-
password check, hash + update, delete the used token. -/
def resetPassword (db : DB) (email otp newPassword : String) (now : Nat) :
    Except AppError Unit × DB :=
  if newPassword.length < 6 then (.error .passwordTooShort, db)
  else
    match db.users.find? (fun u => decide (u.email = email)) with
    | none => (.error .userNotFound, db)
    | some user =>
      match db.tokens.find? (fun t =>
          decide (t.userId = user.id ∧ t.token = otp ∧ t.type = "reset" ∧
            now < t.expiresAt)) with
      | none => (.error .invalidOrExpiredOtp, db)
      | some tokenRecord =>
        if bcryptCompare newPassword user.password then (.error .passwordUnchanged, db)
        else
          let hashed := bcryptHash newPassword
          (.ok (),
            { db with
              users := db.users.map (fun u =>
                if u.id = user.id then { u with password := hashed } else u),
              tokens := db.tokens.filter (fun t => decide (t.id ≠ tokenRecord.id)) })

/-! ### Input validation (`validation.middleware.js`) and the reset route -/

/-- Joi `otp: string().length(6).pattern(/^\d{6}$/)`. -/
def otpPatternOk (s : String) : Bool :=
  decide (s.length = 6) && s.data.all (fun c => c.isDigit)

/-- Simplified model of Joi `string().email()`; its exact RFC rules are not
load-bearing for any claim (only the OTP rule is). -/
def joiEmailOk (s : String) : Bool :=
  match s.split (fun c => c = '@') with
  | [lp, dp] => (!lp.isEmpty) && dp.data.contains '.'
  | _ => false

/-- Body of `POST /reset-password`. -/
structure ResetBody where
  email : String
  otp : String
  newPassword : String
deriving Repr, DecidableEq

/-- Schema `resetPasswordSchema` from `validation.middleware.js`. -/
def resetBodyValid (b : ResetBody) : Bool :=
  joiEmailOk b.email && otpPatternOk b.otp && decide (6 ≤ b.newPassword.length)

/-- Route `POST /reset-password` = `validate(resetPasswordSchema)` middleware then the
`resetPassword` controller (`auth.routes`). -/
def resetPasswordRoute (db : DB) (b : ResetBody) (now : Nat) :
    Except AppError Unit × DB :=
  if resetBodyValid b then resetPassword db b.email b.otp b.newPassword now
  else (.error .validationFailed, db)

/-! ### Notes CRUD (`notes.controller.js`), single-note operations -/

/-- Embedding of `getNoteById`: `Note.findOne({ _id: id, ownerId })`. -/
def getNoteById (db : DB) (noteId userId : Nat) : Except AppError Note :=
  match db.notes.find? (fun n => decide (n.id = noteId ∧ n.ownerId = userId)) with
  | none => .error .noteNotFound
  | some note => .ok note

/-- Embedding of `updateNote`: `Note.findOneAndUpdate({ _id: id, ownerId }, { title, content },
{ new: true })`; `undefined` body fields are stripped from the update. -/
def updateNote (db : DB) (noteId userId : Nat) (title content : Option String) :
    Except AppError Note × DB :=
  match db.notes.find? (fun n => decide (n.id = noteId ∧ n.ownerId = userId)) with
  | none => (.error .noteNotFound, db)
  | some note =>
    let updated : Note :=
      { note with title := title.getD note.title, content := content.getD note.content }
    (.ok updated,
      { db with notes := db.notes.map (fun n => if n.id = note.id then updated else n) })

/-- Embedding of `deleteNote`: `Note.findOneAndDelete({ _id: id, ownerId })`. -/
def deleteNote (db : DB) (noteId userId : Nat) : Except AppError Nat × DB :=
  match db.notes.find? (fun n => decide (n.id = noteId ∧ n.ownerId = userId)) with
  | none => (.error .noteNotFound, db)
  | some note =>
    (.ok note.id,
      { db with notes := db.notes.filter (fun n => decide (n.id ≠ note.id)) })

/-! ### Helper lemmas -/

theorem find?_unique {α : Type} (p : α → Bool) (l : List α) (a : α) (ha : a ∈ l)
    (hpa : p a = true) (huniq : ∀ x ∈ l, p x = true → x = a) :
    l.find? p = some a := by
  induction l with
  | nil => cases ha
  | cons b l ih =>
    by_cases hb : p b = true
    · rw [List.find?_cons_of_pos _ hb]
      exact congrArg some (huniq b (List.mem_cons_self b l) hb)
    · rw [List.find?_cons_of_neg _ hb]
      rcases List.mem_cons.mp ha with h | h
      · exact absurd (h ▸ hpa) hb
      · exact ih h (fun x hx => huniq x (List.mem_cons_of_mem b hx))

theorem bearer_data (s : String) :
    ("Bearer " ++ s).data = "Bearer ".data ++ s.data := String.data_append _ _

theorem bearer_take (s : String) : ("Bearer " ++ s).data.take 7 = "Bearer ".data := by
  rw [bearer_data]
  have h7 : ("Bearer ".data).length = 7 := rfl
  rw [← h7, List.take_left]

theorem bearer_drop (s : String) : ("Bearer " ++ s).data.drop 7 = s.data := by
  rw [bearer_data]
  have h7 : ("Bearer ".data).length = 7 := rfl
  rw [← h7, List.drop_left]

theorem encodeJwtChars_ne_nil (c : JwtClaims) (k : String) :
    encodeJwtChars c k ≠ [] := by
  unfold encodeJwtChars
  intro h
  exact absurd (List.append_eq_nil.mp h).2 (by simp)

theorem encodeJwt_ne_empty (c : JwtClaims) (k : String) : encodeJwt c k ≠ "" := by
  intro h
  exact encodeJwtChars_ne_nil c k (congrArg String.data h)

/-- Reduce `authenticate` on a well-prefixed header to the post-extraction steps. -/
theorem authenticate_bearer (db : DB) (s : String) (now : Nat) (hs : s ≠ "") :
    authenticate db (some ("Bearer " ++ s)) now =
      (match jwtVerify s jwtPublicKey now with
        | .expired => .error .tokenExpired
        | .invalid => .error .tokenInvalid
        | .ok claims =>
          match db.tokens.find? (fun t =>
              decide (t.jti = some claims.jti ∧ t.isRevoked = some true)) with
          | some _ => .error .tokenRevoked
          | none =>
            match db.users.find? (fun u => decide (toString u.id = claims.sub)) with
            | none => .error .userNotFoundAuth
            | some user => .ok (user, claims.jti, claims.exp)) := by
  simp only [authenticate, bearer_take, bearer_drop, string_mk_data, ne_eq,
    not_true_eq_false, if_false, hs, ite_false]

theorem jwtVerify_encode (c : JwtClaims) (k : String) (now : Nat) :
    jwtVerify (encodeJwt c k) jwtPublicKey now =
      (if pubKeyOf k ≠ jwtPublicKey then .invalid
       else if c.exp ≤ now then .expired
       else if c.aud ≠ jwtAudience then .invalid
       else if c.iss ≠ jwtIssuer then .invalid
       else .ok c) := by
  unfold jwtVerify
  rw [show (encodeJwt c k).data = encodeJwtChars c k from rfl, decode_encode]

/-- Definitional unfolding of `authenticate` on a present header. -/
theorem authenticate_some (db : DB) (h : String) (now : Nat) :
    authenticate db (some h) now =
      (if h.data.take 7 ≠ "Bearer ".data then .error .missingToken
       else if String.mk (h.data.drop 7) = "" then .error .missingToken
       else
         match jwtVerify (String.mk (h.data.drop 7)) jwtPublicKey now with
         | .expired => .error .tokenExpired
         | .invalid => .error .tokenInvalid
         | .ok claims =>
           match db.tokens.find? (fun t =>
               decide (t.jti = some claims.jti ∧ t.isRevoked = some true)) with
           | some _ => .error .tokenRevoked
           | none =>
             match db.users.find? (fun u => decide (toString u.id = claims.sub)) with
             | none => .error .userNotFoundAuth
             | some user => .ok (user, claims.jti, claims.exp)) := rfl

/-- Reduce `authenticate` on a structurally valid, unexpired, unrevoked token
to the user lookup. -/
theorem authenticate_valid_token (db : DB) (c : JwtClaims) (now : Nat)
    (hexp : now < c.exp) (haud : c.aud = jwtAudience) (hiss : c.iss = jwtIssuer)
    (hfr : db.tokens.find? (fun t =>
        decide (t.jti = some c.jti ∧ t.isRevoked = some true)) = none) :
    authenticate db (some ("Bearer " ++ encodeJwt c jwtPrivateKey)) now =
      (match db.users.find? (fun u => decide (toString u.id = c.sub)) with
        | none => .error .userNotFoundAuth
        | some user => .ok (user, c.jti, c.exp)) := by
  rw [authenticate_bearer db _ now (encodeJwt_ne_empty c _), jwtVerify_encode,
    if_neg (fun hk => hk rfl), if_neg (by omega), if_neg (fun h => h haud),
    if_neg (fun h => h hiss)]
  simp only [hfr]

/-- The middleware `authenticate` can only report a revoked token if the store holds a record
with `isRevoked` set. -/
theorem authenticate_revoked_exists {db : DB} {h : Option String} {now : Nat}
    (heq : authenticate db h now = .error .tokenRevoked) :
    ∃ t ∈ db.tokens, t.isRevoked = some true := by
  unfold authenticate at heq
  split at heq
  · exact absurd heq (by simp)
  · split at heq
    · exact absurd heq (by simp)
    · split at heq
      · exact absurd heq (by simp)
      · split at heq
        · exact absurd heq (by simp)
        · exact absurd heq (by simp)
        · next claims _ =>
          split at heq
          · next t hfind =>
            refine ⟨t, List.mem_of_find?_eq_some hfind, ?_⟩
            have := List.find?_some hfind
            simp only [decide_eq_true_eq] at this
            exact this.2
          · split at heq
            · exact absurd heq (by simp)
            · exact absurd heq (by simp)

/-! ### Sample records for the concrete witness instances -/

def sampleUser : User :=
  { id := 1, email := "a@x.com", password := bcryptHash "Secret1", isVerified := false }

def sampleDB : DB := { users := [sampleUser], tokens := [], notes := [], nextId := 10 }

def sampleClaims : JwtClaims :=
  { sub := "1", email := "a@x.com", jti := "jti-1", iat := 0, exp := 86400,
    iss := jwtIssuer, aud := jwtAudience }

def sampleToken : String := jwtSign (toString sampleUser.id) sampleUser.email "jti-1" 0

def sampleHeader : String := "Bearer " ++ sampleToken

def sampleNote : Note := { id := 5, title := "t", content := "c", ownerId := 1 }

def sampleNotesDB : DB :=
  { users := [sampleUser], tokens := [], notes := [sampleNote], nextId := 10 }

/-! ### Claims -/

/-- C2: for a registered user with a non-matching password and for an unknown
email with any password, `login` fails with the identical generic
`invalidCredentials` error in both runs — nothing distinguishes unknown-email
from wrong-password. -/
theorem c2_login_generic_invalid_credentials (db : DB) (e1 p1 e2 p2 : String)
    (now1 now2 : Nat) (jti1 jti2 : String) (u : User)
    (h1 : db.users.find? (fun v => decide (v.email = e1)) = none)
    (h2 : db.users.find? (fun v => decide (v.email = e2)) = some u)
    (h3 : bcryptCompare p2 u.password = false) :
    login db e1 p1 now1 jti1 = .error .invalidCredentials ∧
    login db e2 p2 now2 jti2 = .error .invalidCredentials := by
  unfold login
  rw [h1, h2]
  simp [h3]

/-- C2 witness: concrete unknown-email and wrong-password runs. -/
theorem c2_login_generic_invalid_credentials_witness :
    login sampleDB "b@x.com" "whatever" 0 "j1" = .error .invalidCredentials ∧
    login sampleDB "a@x.com" "WrongPass" 0 "j2" = .error .invalidCredentials :=
  c2_login_generic_invalid_credentials sampleDB "b@x.com" "whatever" "a@x.com"
    "WrongPass" 0 0 "j1" "j2" sampleUser (by decide) (by decide) (by decide)

/-- C9: a reset-password request whose OTP does not match `^\d{6}$` is rejected
by the validation middleware with a validation error, for every store state, and
the store is left untouched — the rejection happens before any store lookup. -/
theorem c9_reset_route_rejects_malformed_otp (db : DB) (b : ResetBody) (now : Nat)
    (h : otpPatternOk b.otp = false) :
    resetPasswordRoute db b now = (.error .validationFailed, db) := by
  unfold resetPasswordRoute resetBodyValid
  rw [h]
  simp

/-- C9 witness: the OTPs `"12a456"` and `"123"` are rejected. -/
theorem c9_reset_route_rejects_malformed_otp_witness :
    otpPatternOk "12a456" = false ∧ otpPatternOk "123" = false ∧
    resetPasswordRoute sampleDB ⟨"a@x.com", "12a456", "Secret2"⟩ 0 =
      (.error .validationFailed, sampleDB) ∧
    resetPasswordRoute sampleDB ⟨"a@x.com", "123", "Secret2"⟩ 0 =
      (.error .validationFailed, sampleDB) :=
  ⟨by decide, by decide,
    c9_reset_route_rejects_malformed_otp sampleDB ⟨"a@x.com", "12a456", "Secret2"⟩ 0
      (by decide),
    c9_reset_route_rejects_malformed_otp sampleDB ⟨"a@x.com", "123", "Secret2"⟩ 0
      (by decide)⟩

/-- C10: the single-note read, update and delete operations filter by both note
id and the authenticated user's id, so when every note bearing the requested id
belongs to a different user, each operation fails with `noteNotFound` and leaves
the store unchanged. -/
theorem c10_note_ops_owner_scoped (db : DB) (noteId userId : Nat)
    (title content : Option String)
    (h : ∀ n ∈ db.notes, n.id = noteId → n.ownerId ≠ userId) :
    getNoteById db noteId userId = .error .noteNotFound ∧
    updateNote db noteId userId title content = (.error .noteNotFound, db) ∧
    deleteNote db noteId userId = (.error .noteNotFound, db) := by
  have hfind : db.notes.find? (fun n => decide (n.id = noteId ∧ n.ownerId = userId)) =
      none := by
    rw [List.find?_eq_none]
    intro n hn
    simp only [decide_eq_true_eq, not_and]
    exact h n hn
  unfold getNoteById updateNote deleteNote
  rw [hfind]
  exact ⟨rfl, rfl, rfl⟩

/-- C10 witness: another user (id 2) cannot read, update or delete note 5 owned
by user 1. -/
theorem c10_note_ops_owner_scoped_witness :
    getNoteById sampleNotesDB 5 2 = .error .noteNotFound ∧
    updateNote sampleNotesDB 5 2 (some "x") none = (.error .noteNotFound, sampleNotesDB) ∧
    deleteNote sampleNotesDB 5 2 = (.error .noteNotFound, sampleNotesDB) :=
  c10_note_ops_owner_scoped sampleNotesDB 5 2 (some "x") none (by decide)

/-- C1 counterexample: with one registered user holding a freshly issued bearer
token (jti `"jti-1"`), the logout route succeeds but inserts **no** revocation
record into the token store (the store stays empty), a second logout also
succeeds, and a subsequent `authenticate` with the same jti still succeeds
instead of failing with `tokenRevoked` — refuting the claim that logout inserts
a revocation record enforced by later verification. -/
theorem c1_logout_revocation_counterexample :
    (logoutRoute sampleDB (some sampleHeader) 5).1 = .ok () ∧
    (logoutRoute sampleDB (some sampleHeader) 5).2.tokens = [] ∧
    (logoutRoute (logoutRoute sampleDB (some sampleHeader) 5).2
      (some sampleHeader) 6).1 = .ok () ∧
    authenticate (logoutRoute sampleDB (some sampleHeader) 5).2
      (some sampleHeader) 7 = .ok (sampleUser, "jti-1", 86400) :=
  ⟨rfl, rfl, rfl, rfl⟩

/-- C1 (amended): the logout route never writes to any store (so calling it
once or twice trivially leaves no revocation record), it succeeds exactly when
`authenticate` accepts the presented token, and — since no creation site ever
sets `isRevoked` — `authenticate` can never fail with `tokenRevoked` on any
store the application can produce. -/
theorem c1_amended_logout_is_noop (db : DB) (h : Option String) (now now2 : Nat)
    (hnorecord : ∀ t ∈ db.tokens, t.isRevoked = none) :
    (logoutRoute db h now).2 = db ∧
    ((logoutRoute db h now).1.isOk = (authenticate db h now).isOk) ∧
    authenticate db h now2 ≠ .error .tokenRevoked := by
  refine ⟨?_, ?_, ?_⟩
  · unfold logoutRoute logout
    split <;> rfl
  · unfold logoutRoute logout
    split <;> simp_all [Except.isOk, Except.toBool]
  · intro hcontra
    obtain ⟨t, ht, hrev⟩ := authenticate_revoked_exists hcontra
    rw [hnorecord t ht] at hrev
    cases hrev

/-- C1 (amended) witness: the concrete logout scenario. -/
theorem c1_amended_logout_is_noop_witness :
    (logoutRoute sampleDB (some sampleHeader) 5).2 = sampleDB ∧
    ((logoutRoute sampleDB (some sampleHeader) 5).1.isOk =
      (authenticate sampleDB (some sampleHeader) 5).isOk) ∧
    authenticate sampleDB (some sampleHeader) 6 ≠ .error .tokenRevoked :=
  c1_amended_logout_is_noop sampleDB (some sampleHeader) 5 6 (by decide)

/-- C6: the `authenticate` failure taxonomy and its order — a missing header or
one without the `"Bearer "`-prefix fails with `missingToken`; a well-signed
token past expiry fails with `tokenExpired` (before any audience/issuer,
revocation or user check); a malformed token, wrong signing key, or
audience/issuer mismatch fails with `tokenInvalid`; only a structurally valid
token reaches the revocation check, after which the subject is looked up,
failing with the middleware's user-not-found error when absent and attaching
the user (with jti and exp) on success. -/
theorem c6_authenticate_taxonomy (db : DB) (now : Nat) :
    (authenticate db none now = .error .missingToken) ∧
    (∀ h : String, h.data.take 7 ≠ "Bearer ".data →
      authenticate db (some h) now = .error .missingToken) ∧
    (∀ c : JwtClaims, c.exp ≤ now →
      authenticate db (some ("Bearer " ++ encodeJwt c jwtPrivateKey)) now =
        .error .tokenExpired) ∧
    (∀ s : String, decodeJwtChars s.data = none → s ≠ "" →
      authenticate db (some ("Bearer " ++ s)) now = .error .tokenInvalid) ∧
    (∀ (c : JwtClaims) (k : String), pubKeyOf k ≠ jwtPublicKey →
      authenticate db (some ("Bearer " ++ encodeJwt c k)) now = .error .tokenInvalid) ∧
    (∀ c : JwtClaims, now < c.exp → (c.aud ≠ jwtAudience ∨ c.iss ≠ jwtIssuer) →
      authenticate db (some ("Bearer " ++ encodeJwt c jwtPrivateKey)) now =
        .error .tokenInvalid) ∧
    (∀ c : JwtClaims, now < c.exp → c.aud = jwtAudience → c.iss = jwtIssuer →
      (∀ t ∈ db.tokens, ¬(t.jti = some c.jti ∧ t.isRevoked = some true)) →
      (db.users.find? (fun u => decide (toString u.id = c.sub)) = none →
        authenticate db (some ("Bearer " ++ encodeJwt c jwtPrivateKey)) now =
          .error .userNotFoundAuth) ∧
      (∀ u : User, db.users.find? (fun u => decide (toString u.id = c.sub)) = some u →
        authenticate db (some ("Bearer " ++ encodeJwt c jwtPrivateKey)) now =
          .ok (u, c.jti, c.exp))) := by
  refine ⟨rfl, ?_, ?_, ?_, ?_, ?_, ?_⟩
  · intro h htake
    rw [authenticate_some, if_pos htake]
  · intro c hexp
    rw [authenticate_bearer db _ now (encodeJwt_ne_empty c _), jwtVerify_encode,
      if_neg (fun hk => hk rfl), if_pos hexp]
  · intro s hdec hsne
    rw [authenticate_bearer db s now hsne]
    unfold jwtVerify
    rw [hdec]
  · intro c k hk
    rw [authenticate_bearer db _ now (encodeJwt_ne_empty c k), jwtVerify_encode,
      if_pos hk]
  · intro c hexp hbad
    rw [authenticate_bearer db _ now (encodeJwt_ne_empty c _), jwtVerify_encode,
      if_neg (fun hk => hk rfl), if_neg (by omega)]
    by_cases haud : c.aud ≠ jwtAudience
    · rw [if_pos haud]
    · rw [if_neg haud]
      have hiss : c.iss ≠ jwtIssuer := hbad.resolve_left haud
      rw [if_pos hiss]
  · intro c hexp haud hiss hnorev
    have hfr : db.tokens.find? (fun t =>
        decide (t.jti = some c.jti ∧ t.isRevoked = some true)) = none := by
      rw [List.find?_eq_none]
      intro t ht
      simpa using hnorev t ht
    constructor
    · intro hnone
      rw [authenticate_valid_token db c now hexp haud hiss hfr, hnone]
    · intro u hsome
      rw [authenticate_valid_token db c now hexp haud hiss hfr, hsome]

/-- C6 witness: each branch of the taxonomy exercised on concrete input. -/
theorem c6_authenticate_taxonomy_witness :
    authenticate sampleDB none 5 = .error .missingToken ∧
    authenticate sampleDB (some "Token abc") 5 = .error .missingToken ∧
    authenticate sampleDB (some ("Bearer " ++ encodeJwt sampleClaims jwtPrivateKey))
      86400 = .error .tokenExpired ∧
    authenticate sampleDB (some ("Bearer " ++ "garbage")) 5 = .error .tokenInvalid ∧
    authenticate sampleDB (some ("Bearer " ++ encodeJwt sampleClaims "attacker-key"))
      5 = .error .tokenInvalid ∧
    authenticate sampleDB
      (some ("Bearer " ++ encodeJwt { sampleClaims with aud := "evil" } jwtPrivateKey))
      5 = .error .tokenInvalid ∧
    authenticate { sampleDB with users := [] }
      (some ("Bearer " ++ encodeJwt sampleClaims jwtPrivateKey)) 5 =
      .error .userNotFoundAuth ∧
    authenticate sampleDB (some ("Bearer " ++ encodeJwt sampleClaims jwtPrivateKey))
      5 = .ok (sampleUser, "jti-1", 86400) :=
  ⟨(c6_authenticate_taxonomy sampleDB 5).1,
    (c6_authenticate_taxonomy sampleDB 5).2.1 "Token abc" (by decide),
    (c6_authenticate_taxonomy sampleDB 86400).2.2.1 sampleClaims (by decide),
    (c6_authenticate_taxonomy sampleDB 5).2.2.2.1 "garbage" (by decide) (by decide),
    (c6_authenticate_taxonomy sampleDB 5).2.2.2.2.1 sampleClaims "attacker-key"
      (by decide),
    (c6_authenticate_taxonomy sampleDB 5).2.2.2.2.2.1
      { sampleClaims with aud := "evil" } (by decide) (by decide),
    ((c6_authenticate_taxonomy { sampleDB with users := [] } 5).2.2.2.2.2.2
      sampleClaims (by decide) rfl rfl (by decide)).1 (by decide),
    ((c6_authenticate_taxonomy sampleDB 5).2.2.2.2.2.2 sampleClaims (by decide)
      rfl rfl (by decide)).2 sampleUser (by decide)⟩

/-- C3: round-trip — when `login` succeeds and returns a bearer token, an
immediate `authenticate` with that token (before the 24-hour expiry, with no
revocation-flagged record in the store) accepts it and yields the very same
user, with the token's jti and expiry attached; in particular the verified
subject claim is the logged-in user's id. -/
theorem c3_login_authenticate_roundtrip (db : DB) (email pw jti tokenStr : String)
    (u : User) (now nowV : Nat)
    (hlogin : login db email pw now jti = .ok (u, tokenStr))
    (hids : ∀ v ∈ db.users, toString v.id = toString u.id → v = u)
    (hnorev : ∀ t ∈ db.tokens, t.isRevoked ≠ some true)
    (hnow : nowV < now + jwtExpiresInSeconds) :
    authenticate db (some ("Bearer " ++ tokenStr)) nowV =
      .ok (u, jti, now + jwtExpiresInSeconds) ∧
    (∃ c : JwtClaims, jwtVerify tokenStr jwtPublicKey nowV = .ok c ∧
      c.sub = toString u.id) := by
  unfold login at hlogin
  cases hfind : db.users.find? (fun v => decide (v.email = email)) with
  | none =>
    rw [hfind] at hlogin
    cases hlogin
  | some user =>
    rw [hfind] at hlogin
    by_cases hcmp : bcryptCompare pw user.password = true
    · simp only [hcmp, eq_self_iff_true, if_true] at hlogin
      injection hlogin with hpair
      have hu : user = u := congrArg Prod.fst hpair
      have htok : tokenStr = jwtSign (toString user.id) user.email jti now :=
        (congrArg Prod.snd hpair).symm
      rw [hu] at htok
      have hmem : u ∈ db.users := hu ▸ List.mem_of_find?_eq_some hfind
      have hfr : db.tokens.find? (fun t =>
          decide (t.jti = some jti) && decide (t.isRevoked = some true)) = none := by
        rw [List.find?_eq_none]
        intro t ht
        simp only [Bool.and_eq_true, decide_eq_true_eq, not_and]
        exact fun _ => hnorev t ht
      have hfu : db.users.find? (fun v => decide (toString v.id = toString u.id)) =
          some u := by
        refine find?_unique _ _ u hmem (by simp) ?_
        intro x hx hpx
        exact hids x hx (by simpa using hpx)
      rw [htok]
      unfold jwtSign
      have hexp2 : ¬(now + jwtExpiresInSeconds ≤ nowV) := by omega
      constructor
      · rw [authenticate_bearer db _ nowV (encodeJwt_ne_empty _ _), jwtVerify_encode]
        simp [jwtPublicKey, hexp2, hfu]
        rw [hfr]
      · refine ⟨⟨toString u.id, u.email, jti, now, now + jwtExpiresInSeconds,
          jwtIssuer, jwtAudience⟩, ?_, rfl⟩
        rw [jwtVerify_encode]
        simp [jwtPublicKey, hexp2]
    · simp only [hcmp, if_false] at hlogin
      exact Except.noConfusion hlogin

/-- C3 witness: the sample user logs in at time 0 and the token verifies at
time 3. -/
theorem c3_login_authenticate_roundtrip_witness :
    authenticate sampleDB (some ("Bearer " ++ sampleToken)) 3 =
      .ok (sampleUser, "jti-1", 0 + jwtExpiresInSeconds) ∧
    (∃ c : JwtClaims, jwtVerify sampleToken jwtPublicKey 3 = .ok c ∧
      c.sub = toString sampleUser.id) :=
  c3_login_authenticate_roundtrip sampleDB "a@x.com" "Secret1" "jti-1" sampleToken
    sampleUser 0 3 rfl (by decide) (by decide) (by decide)

/-- C5's invariant: at most one unexpired reset-kind token per user. -/
def atMostOnePending (db : DB) (now : Nat) : Prop :=
  ∀ t1 ∈ db.tokens, ∀ t2 ∈ db.tokens, t1.userId = t2.userId →
    t1.type = "reset" → t2.type = "reset" →
    now < t1.expiresAt → now < t2.expiresAt → t1 = t2

/-- Appending a fresh reset token to a store with no unexpired reset token for
that user preserves the at-most-one-pending property. -/
theorem pending_preserved (db : DB) (uid now : Nat) (tok : TokenRecord)
    (hinv : atMostOnePending db now)
    (hnone : db.tokens.find? (fun t =>
        decide (t.userId = uid ∧ t.type = "reset" ∧ now < t.expiresAt)) = none)
    (huid : tok.userId = uid) :
    ∀ t1 ∈ db.tokens ++ [tok], ∀ t2 ∈ db.tokens ++ [tok], t1.userId = t2.userId →
      t1.type = "reset" → t2.type = "reset" →
      now < t1.expiresAt → now < t2.expiresAt → t1 = t2 := by
  have hmiss : ∀ t ∈ db.tokens, t.userId = uid → t.type = "reset" →
      now < t.expiresAt → False := by
    intro t ht h1 h2 h3
    have := List.find?_eq_none.mp hnone t ht
    simp only [decide_eq_true_eq] at this
    exact this ⟨h1, h2, h3⟩
  intro t1 ht1 t2 ht2 huser hr1 hr2 he1 he2
  rcases List.mem_append.mp ht1 with h1 | h1 <;>
    rcases List.mem_append.mp ht2 with h2 | h2
  · exact hinv t1 h1 t2 h2 huser hr1 hr2 he1 he2
  · have ht2tok : t2 = tok := List.mem_singleton.mp h2
    exact (hmiss t1 h1 (by rw [huser, ht2tok, huid]) hr1 he1).elim
  · have ht1tok : t1 = tok := List.mem_singleton.mp h1
    exact (hmiss t2 h2 (by rw [← huser, ht1tok, huid]) hr2 he2).elim
  · rw [List.mem_singleton.mp h1, List.mem_singleton.mp h2]

/-- C5: when the user already holds an unexpired reset token, the
forget-password operation fails with `resetAlreadyPending` carrying the
remaining validity in minutes (`Math.ceil` of the remaining ms over 60000) and
leaves the store unchanged; moreover every `forgetPassword` call preserves the
at-most-one-unexpired-reset-token-per-user invariant. -/
theorem c5_reset_already_pending (db : DB) (email : String) (now : Nat)
    (rnd : Fin 900000) (emailOk : Bool) (u : User) (ex : TokenRecord)
    (hu : db.users.find? (fun v => decide (v.email = email)) = some u)
    (hex : db.tokens.find? (fun t =>
        decide (t.userId = u.id ∧ t.type = "reset" ∧ now < t.expiresAt)) = some ex) :
    (forgetPassword db email now rnd emailOk =
      (.error (.resetAlreadyPending ((ex.expiresAt - now + 59999) / 60000)), db)) ∧
    (∀ (db' : DB) (email' : String) (rnd' : Fin 900000) (emailOk' : Bool),
      atMostOnePending db' now →
      atMostOnePending (forgetPassword db' email' now rnd' emailOk').2 now) := by
  constructor
  · simp only [forgetPassword, hu, hex]
  · intro db' email' rnd' emailOk' hinv
    cases hfu : db'.users.find? (fun v => decide (v.email = email')) with
    | none => simpa [forgetPassword, hfu] using hinv
    | some user =>
      cases hfe : db'.tokens.find? (fun t =>
          decide (t.userId = user.id ∧ t.type = "reset" ∧ now < t.expiresAt)) with
      | some ex' =>
        simp only [forgetPassword, hfu, hfe]
        exact hinv
      | none =>
        have hkey := pending_preserved db' user.id now
          { id := db'.nextId, userId := user.id, token := otpOf rnd',
            type := "reset", expiresAt := now + 10 * 60 * 1000 } hinv hfe rfl
        cases emailOk' with
        | true =>
          simp only [forgetPassword, hfu, hfe, if_true]
          exact hkey
        | false =>
          simp only [forgetPassword, hfu, hfe, Bool.false_eq_true, if_false]
          intro t1 ht1 t2 ht2
          exact hkey t1 (List.mem_of_mem_filter ht1) t2 (List.mem_of_mem_filter ht2)

/-- Sample store with one pending unexpired reset token for the sample user. -/
def pendingToken : TokenRecord :=
  { id := 10, userId := 1, token := "223456", type := "reset", expiresAt := 601000 }

def pendingDB : DB :=
  { users := [sampleUser], tokens := [pendingToken], notes := [], nextId := 11 }

/-- C5 witness: a second reset request at t = 2000 ms is rejected with 10
minutes remaining, and the invariant is preserved. -/
theorem c5_reset_already_pending_witness :
    (forgetPassword pendingDB "a@x.com" 2000 ⟨0, by decide⟩ true =
      (.error (.resetAlreadyPending ((pendingToken.expiresAt - 2000 + 59999) / 60000)),
        pendingDB)) ∧
    (∀ (db' : DB) (email' : String) (rnd' : Fin 900000) (emailOk' : Bool),
      atMostOnePending db' 2000 →
      atMostOnePending (forgetPassword db' email' 2000 rnd' emailOk').2 2000) :=
  c5_reset_already_pending pendingDB "a@x.com" 2000 ⟨0, by decide⟩ true sampleUser
    pendingToken (by decide) (by decide)

/-- C7: when the user exists, no reset is pending, and the mail dispatch fails,
`forgetPassword` fails with `emailDeliveryFailed` and the just-created token has
been deleted again — the token store is exactly what it was before the call. -/
theorem c7_email_failure_cleanup (db : DB) (email : String) (now : Nat)
    (rnd : Fin 900000) (u : User)
    (hu : db.users.find? (fun v => decide (v.email = email)) = some u)
    (hpend : db.tokens.find? (fun t =>
        decide (t.userId = u.id ∧ t.type = "reset" ∧ now < t.expiresAt)) = none)
    (hfresh : ∀ t ∈ db.tokens, t.id ≠ db.nextId) :
    (forgetPassword db email now rnd false).1 = .error .emailDeliveryFailed ∧
    (forgetPassword db email now rnd false).2.tokens = db.tokens := by
  simp only [forgetPassword, hu, hpend, Bool.false_eq_true, if_false]
  refine ⟨by trivial, ?_⟩
  simp only [List.filter_append]
  rw [List.filter_eq_self.mpr (fun a ha => by simpa using hfresh a ha)]
  simp

/-- C7 witness: concrete failing dispatch leaves the (empty) token store
unchanged. -/
theorem c7_email_failure_cleanup_witness :
    (forgetPassword sampleDB "a@x.com" 1000 ⟨123456, by decide⟩ false).1 =
      .error .emailDeliveryFailed ∧
    (forgetPassword sampleDB "a@x.com" 1000 ⟨123456, by decide⟩ false).2.tokens =
      sampleDB.tokens :=
  c7_email_failure_cleanup sampleDB "a@x.com" 1000 ⟨123456, by decide⟩ sampleUser
    (by decide) (by decide) (by decide)

theorem find?_append_none {α : Type} (p : α → Bool) (l1 l2 : List α)
    (h : l1.find? p = none) : (l1 ++ l2).find? p = l2.find? p := by
  induction l1 with
  | nil => rfl
  | cons a l ih =>
    have hall := List.find?_eq_none.mp h
    rw [List.cons_append, List.find?_cons_of_neg _
      (by simpa using hall a (List.mem_cons_self a l))]
    exact ih (List.find?_eq_none.mpr fun x hx => hall x (List.mem_cons_of_mem a hx))

theorem find?_email_map (l : List User) (f : User → User)
    (hf : ∀ v, (f v).email = v.email) (email : String) :
    (l.map f).find? (fun v => decide (v.email = email)) =
      (l.find? (fun v => decide (v.email = email))).map f := by
  induction l with
  | nil => rfl
  | cons a l ih =>
    by_cases h : a.email = email
    · rw [List.map_cons, List.find?_cons_of_pos _ (by simp [hf, h]),
        List.find?_cons_of_pos _ (by simp [h])]
      rfl
    · rw [List.map_cons, List.find?_cons_of_neg _ (by simp [hf, h]),
        List.find?_cons_of_neg _ (by simp [h])]
      exact ih

/-- When no stored token matches `(userId, otp, reset, unexpired)`, the
reset-password controller fails with `invalidOrExpiredOtp` and changes
nothing. -/
theorem resetPassword_no_matching_token (db : DB) (email otp npw : String)
    (now : Nat) (u : User) (hlen : ¬(npw.length < 6))
    (hu : db.users.find? (fun v => decide (v.email = email)) = some u)
    (hnone : db.tokens.find? (fun t =>
        decide (t.userId = u.id ∧ t.token = otp ∧ t.type = "reset" ∧
          now < t.expiresAt)) = none) :
    resetPassword db email otp npw now = (.error .invalidOrExpiredOtp, db) := by
  unfold resetPassword
  rw [if_neg hlen]
  simp only [hu, hnone]

/-- C4: when a reset succeeds with an OTP (and the store held at most one
unexpired reset token for that user, as the pending-check invariant
guarantees), the consumed token is gone, so replaying the same email and OTP at
any later time fails with `invalidOrExpiredOtp` and leaves the state
unchanged. -/
theorem c4_otp_single_use (db db2 : DB) (email otp npw npw2 : String)
    (now now2 : Nat) (u : User)
    (hu : db.users.find? (fun v => decide (v.email = email)) = some u)
    (hrun : resetPassword db email otp npw now = (.ok (), db2))
    (hseq : now ≤ now2)
    (hsingle : ∀ t1 ∈ db.tokens, ∀ t2 ∈ db.tokens, t1.userId = u.id →
      t2.userId = u.id → t1.type = "reset" → t2.type = "reset" →
      now < t1.expiresAt → now < t2.expiresAt → t1 = t2)
    (hlen2 : ¬(npw2.length < 6)) :
    resetPassword db2 email otp npw2 now2 = (.error .invalidOrExpiredOtp, db2) := by
  unfold resetPassword at hrun
  by_cases hlen : npw.length < 6
  · rw [if_pos hlen] at hrun
    exact absurd (congrArg Prod.fst hrun) (by simp)
  · rw [if_neg hlen] at hrun
    simp only [hu] at hrun
    cases hft : db.tokens.find? (fun t =>
        decide (t.userId = u.id ∧ t.token = otp ∧ t.type = "reset" ∧
          now < t.expiresAt)) with
    | none =>
      simp only [hft] at hrun
      exact absurd (congrArg Prod.fst hrun) (by simp)
    | some tr =>
      simp only [hft] at hrun
      by_cases hsame : bcryptCompare npw u.password = true
      · simp only [hsame, eq_self_iff_true, if_true] at hrun
        exact absurd (congrArg Prod.fst hrun) (by simp)
      · simp only [hsame, if_false] at hrun
        have hdb2 : db2 = { db with
            users := db.users.map (fun v =>
              if v.id = u.id then { v with password := bcryptHash npw } else v),
            tokens := db.tokens.filter (fun t => decide (t.id ≠ tr.id)) } :=
          (congrArg Prod.snd hrun).symm
        subst hdb2
        have htrp := List.find?_some hft
        simp only [decide_eq_true_eq] at htrp
        obtain ⟨htr1, htr2, htr3, htr4⟩ := htrp
        have htrmem := List.mem_of_find?_eq_some hft
        refine resetPassword_no_matching_token _ email otp npw2 now2
          (if u.id = u.id then { u with password := bcryptHash npw } else u)
          hlen2 ?_ ?_
        · rw [show ({ db with
              users := db.users.map (fun v =>
                if v.id = u.id then { v with password := bcryptHash npw } else v),
              tokens := db.tokens.filter (fun t => decide (t.id ≠ tr.id)) } : DB).users
              = db.users.map (fun v =>
                if v.id = u.id then { v with password := bcryptHash npw } else v)
            from rfl,
            find?_email_map db.users _
              (fun v => by by_cases h : v.id = u.id <;> simp [h]) email, hu]
          rfl
        · rw [List.find?_eq_none]
          intro t ht
          have hmf := List.mem_filter.mp ht
          simp only [decide_eq_true_eq, not_and]
          intro hm1 hm2 hm3 hm4
          have hne := hmf.2
          simp only [decide_eq_true_eq] at hne
          refine hne ?_
      /- `t` matches the query at `now2`, hence also at `now`; by the
         at-most-one hypothesis it equals the deleted record `tr`. -/
          have ht' : t = tr := by
            refine hsingle t hmf.1 tr htrmem ?_ htr1 hm3 htr3 ?_ htr4
            · rw [hm1]; simp
            · omega
          rw [ht']

/-- C4 witness: the pending sample OTP is consumed at t = 2000 and replaying it
at t = 3000 fails. -/
theorem c4_otp_single_use_witness :
    resetPassword (resetPassword pendingDB "a@x.com" "223456" "Secret2" 2000).2
      "a@x.com" "223456" "Secret3" 3000 =
      (.error .invalidOrExpiredOtp,
        (resetPassword pendingDB "a@x.com" "223456" "Secret2" 2000).2) :=
  c4_otp_single_use pendingDB _ "a@x.com" "223456" "Secret2" "Secret3" 2000 3000
    sampleUser (by decide) rfl (by decide) (by decide) (by decide)

/-- C8: a reset token created at `now` carries a numeric code in
100000–999999 and expiry `now + 10` minutes; resetting with that code succeeds
at any time strictly before the expiry (given the usual success
side-conditions), fails with `invalidOrExpiredOtp` once the expiry has been
reached or passed, and a wrong code at a valid time produces the very same
error — wrong and expired codes are indistinguishable. -/
theorem c8_otp_validity_window (db db2 : DB) (email npw : String)
    (now now2 now3 : Nat) (rnd : Fin 900000) (u : User)
    (hu : db.users.find? (fun v => decide (v.email = email)) = some u)
    (hnopend : ∀ t ∈ db.tokens, t.userId = u.id → t.type = "reset" →
      t.expiresAt ≤ now)
    (hrun : forgetPassword db email now rnd true = (.ok (), db2))
    (hlen : ¬(npw.length < 6))
    (hdiff : bcryptCompare npw u.password = false)
    (h2a : now ≤ now2) (h2b : now2 < now + 10 * 60 * 1000)
    (h3 : now + 10 * 60 * 1000 ≤ now3) :
    (100000 ≤ 100000 + rnd.val ∧ 100000 + rnd.val ≤ 999999 ∧
      otpOf rnd = toString (100000 + rnd.val)) ∧
    ((⟨db.nextId, u.id, otpOf rnd, "reset", now + 10 * 60 * 1000, none, none⟩ :
      TokenRecord) ∈ db2.tokens) ∧
    (resetPassword db2 email (otpOf rnd) npw now2).1 = .ok () ∧
    (resetPassword db2 email (otpOf rnd) npw now3 =
      (.error .invalidOrExpiredOtp, db2)) ∧
    (∀ wrongOtp : String, (∀ t ∈ db2.tokens, t.token ≠ wrongOtp) →
      resetPassword db2 email wrongOtp npw now2 =
        (.error .invalidOrExpiredOtp, db2)) := by
  have hpend : db.tokens.find? (fun t =>
      decide (t.userId = u.id ∧ t.type = "reset" ∧ now < t.expiresAt)) = none := by
    rw [List.find?_eq_none]
    intro t ht
    simp only [decide_eq_true_eq, not_and]
    intro h1 h2
    exact Nat.not_lt.mpr (hnopend t ht h1 h2)
  simp only [forgetPassword, hu, hpend, if_true] at hrun
  have hdb2 : db2 = { db with
      tokens := db.tokens ++ [⟨db.nextId, u.id, otpOf rnd, "reset",
        now + 10 * 60 * 1000, none, none⟩],
      nextId := db.nextId + 1 } :=
    (congrArg Prod.snd hrun).symm
  subst hdb2
  have hold : ∀ (m : Nat), now ≤ m → ∀ otp2 : String, db.tokens.find? (fun t =>
      decide (t.userId = u.id ∧ t.token = otp2 ∧ t.type = "reset" ∧
        m < t.expiresAt)) = none := by
    intro m hm otp2
    rw [List.find?_eq_none]
    intro t ht
    simp only [decide_eq_true_eq, not_and]
    intro h1 _ h2
    have := hnopend t ht h1 h2
    omega
  refine ⟨⟨Nat.le_add_right _ _, by have := rnd.isLt; omega, rfl⟩, ?_, ?_, ?_, ?_⟩
  · exact List.mem_append.mpr (Or.inr (List.mem_singleton.mpr rfl))
  · unfold resetPassword
    rw [if_neg hlen]
    have hfind : (db.tokens ++ [(⟨db.nextId, u.id, otpOf rnd, "reset",
        now + 10 * 60 * 1000, none, none⟩ : TokenRecord)]).find? (fun t =>
        decide (t.userId = u.id ∧ t.token = otpOf rnd ∧ t.type = "reset" ∧
          now2 < t.expiresAt)) = some (⟨db.nextId, u.id, otpOf rnd, "reset",
        now + 10 * 60 * 1000, none, none⟩ : TokenRecord) := by
      rw [find?_append_none _ _ _ (hold now2 h2a (otpOf rnd)),
        List.find?_cons_of_pos _ (by simp; omega)]
    simp only [hu, hfind, hdiff, Bool.false_eq_true, if_false]
  · refine resetPassword_no_matching_token _ email (otpOf rnd) npw now3 u hlen hu ?_
    rw [find?_append_none _ _ _ (hold now3 (by omega) (otpOf rnd)),
      List.find?_cons_of_neg _ (by simp; omega)]
    rfl
  · intro wrongOtp hw
    refine resetPassword_no_matching_token _ email wrongOtp npw now2 u hlen hu ?_
    rw [List.find?_eq_none]
    intro t ht
    simp only [decide_eq_true_eq, not_and]
    intro _ hm2
    exact absurd hm2 (hw t ht)

/-- C8 witness: a token created at t = 1000 ms with code 223456 expires at
601000 ms; reset succeeds at 600000 ms (T+9:59), fails at 602000 ms (T+10:01),
and a wrong code at 600000 ms fails identically. -/
theorem c8_otp_validity_window_witness :
    (100000 ≤ 100000 + (123456 : Fin 900000).val ∧
      100000 + (123456 : Fin 900000).val ≤ 999999 ∧
      otpOf 123456 = toString (100000 + (123456 : Fin 900000).val)) ∧
    ((⟨sampleDB.nextId, sampleUser.id, otpOf 123456, "reset",
      1000 + 10 * 60 * 1000, none, none⟩ : TokenRecord) ∈
        (forgetPassword sampleDB "a@x.com" 1000 123456 true).2.tokens) ∧
    (resetPassword (forgetPassword sampleDB "a@x.com" 1000 123456 true).2
      "a@x.com" (otpOf 123456) "Secret2" 600000).1 = .ok () ∧
    (resetPassword (forgetPassword sampleDB "a@x.com" 1000 123456 true).2
      "a@x.com" (otpOf 123456) "Secret2" 602000 =
      (.error .invalidOrExpiredOtp,
        (forgetPassword sampleDB "a@x.com" 1000 123456 true).2)) ∧
    (∀ wrongOtp : String,
      (∀ t ∈ (forgetPassword sampleDB "a@x.com" 1000 123456 true).2.tokens,
        t.token ≠ wrongOtp) →
      resetPassword (forgetPassword sampleDB "a@x.com" 1000 123456 true).2
        "a@x.com" wrongOtp "Secret2" 600000 =
        (.error .invalidOrExpiredOtp,
          (forgetPassword sampleDB "a@x.com" 1000 123456 true).2)) :=
  c8_otp_validity_window sampleDB _ "a@x.com" "Secret2" 1000 600000 602000 123456
    sampleUser (by decide) (by decide) rfl (by decide) (by decide) (by decide)
    (by decide) (by decide)

end SmartNote
